import Mathlib

/-!
Shallow embedding of the analysis-orchestration and evaluation subsystem of
the `shoulder` repository (`src/llm_server/`), together with theorems settling
the specification claims about it.

Python strings are modelled as Lean `String`; Python `float` scores and
confidences are modelled as `ℚ` (the code only manipulates them with
comparisons, `min`/`max` and elementary arithmetic). Network I/O is modelled
by passing the outcome of each HTTP call in explicitly as data; wall-clock
quantities (timestamps, latencies) are not modelled and are fixed to `0`.
-/

namespace Shoulder

/-! ## Python string primitives

`listStarts n l` is `n` being an initial segment of `l`; `listOccurs n l` is
Python's substring test `n in l`. `pyLower`, `pyStrip`, `pySplit` and
`pyTake` model `str.lower()`, `str.strip()`, `str.split()` and slicing
`s[:n]` (all of them per code point, as Python does). -/

def listStarts : List Char → List Char → Bool
  | [], _ => true
  | _ :: _, [] => false
  | a :: as, b :: bs => a == b && listStarts as bs

def listOccurs : List Char → List Char → Bool
  | n, [] => n.isEmpty
  | n, b :: bs => listStarts n (b :: bs) || listOccurs n bs

/-- Python's `needle in hay` substring test. -/
def containsStr (hay needle : String) : Bool := listOccurs needle.data hay.data

/-- Python's `s.startswith(p)`. -/
def startsWithStr (s p : String) : Bool := listStarts p.data s.data

/-- Python's `s.lower()` (ASCII case folding, which covers all inputs the
code feeds it). -/
def pyLower (s : String) : String := String.mk (s.data.map Char.toLower)

/-- Python's `s.strip()`: drop leading and trailing whitespace. -/
def pyStrip (s : String) : String :=
  String.mk (((s.data.dropWhile Char.isWhitespace).reverse.dropWhile
      Char.isWhitespace).reverse)

def splitWordsAux : List Char → List Char → List (List Char)
  | [], acc => if acc.isEmpty then [] else [acc.reverse]
  | c :: cs, acc =>
    if c.isWhitespace then
      if acc.isEmpty then splitWordsAux cs []
      else acc.reverse :: splitWordsAux cs []
    else splitWordsAux cs (c :: acc)

/-- Python's `s.split()`: split on runs of whitespace, no empty tokens. -/
def pySplit (s : String) : List String := (splitWordsAux s.data []).map String.mk

/-- Python's slice `s[:n]`, counting code points. -/
def pyTake (s : String) (n : Nat) : String := String.mk (s.data.take n)

/-! ## Heuristic fallback classifier (`server.py`, `create_fallback_analysis`)

The parsed-JSON dictionaries exchanged with the backend are modelled by
`AnalysisDict`: each field is `Option`-valued because the Python code reads
them with `dict.get` and a default. -/

structure AnalysisDict where
  summary : Option String
  category : Option String
  productivity_score : Option ℚ
  key_activities : Option (List String)
  suggestions : Option (List String)
  confidence : Option ℚ

/-- The all-absent dictionary (Python `{}`). -/
def emptyDict : AnalysisDict := ⟨none, none, none, none, none, none⟩

/-- Keyword table of `create_fallback_analysis`: the first `if`/`elif` branch
whose keyword set meets the lowered text decides category and score. -/
def fallback_category_score (text_lower : String) : String × ℚ :=
  if ["code", "function", "class", "import", "def", "var", "const"].any
      (fun kw => containsStr text_lower kw) then ("Programming", 8)
  else if ["email", "message", "chat", "slack", "teams"].any
      (fun kw => containsStr text_lower kw) then ("Communication", 6)
  else if ["google", "search", "stackoverflow", "documentation"].any
      (fun kw => containsStr text_lower kw) then ("Research", 7)
  else if ["document", "report", "presentation", "slides"].any
      (fun kw => containsStr text_lower kw) then ("Documentation", 15/2)
  else if ["design", "figma", "sketch", "photoshop"].any
      (fun kw => containsStr text_lower kw) then ("Design", 8)
  else if ["video", "youtube", "netflix", "spotify"].any
      (fun kw => containsStr text_lower kw) then ("Media", 3)
  else ("Other", 5)

/-- One step of the `word_freq` loop: `word_freq[w] = word_freq.get(w, 0) + 1`
on a Python dict modelled as an insertion-ordered association list. -/
def bumpFreq (m : List (String × Nat)) (w : String) : List (String × Nat) :=
  if m.any (fun p => p.1 == w) then
    m.map (fun p => if p.1 == w then (p.1, p.2 + 1) else p)
  else m ++ [(w, 1)]

/-- One word of the `word_freq` loop: only words longer than 4 characters are
counted (`if len(word) > 4`), keyed by their lowercased form. -/
def freqStep (m : List (String × Nat)) (w : String) : List (String × Nat) :=
  if 4 < w.length then bumpFreq m (pyLower w) else m

/-- The `word_freq` dictionary: words longer than 4 characters, counted by
their lowercased form, in first-occurrence order. -/
def buildFreq (ws : List String) : List (String × Nat) :=
  ws.foldl freqStep []

/-- Stable insertion of one entry into a count-descending list. The inserted
entry is always the originally-earliest one, so on equal counts it goes
first, which reproduces the stability of Python's `sorted`. -/
def insertCountDesc (x : String × Nat) : List (String × Nat) → List (String × Nat)
  | [] => [x]
  | y :: ys => if y.2 ≤ x.2 then x :: y :: ys else y :: insertCountDesc x ys

/-- Python's `sorted(items, key=lambda x: x[1], reverse=True)`: a stable sort
by count descending (ties keep first-occurrence order). -/
def sortByCountDesc : List (String × Nat) → List (String × Nat)
  | [] => []
  | x :: xs => insertCountDesc x (sortByCountDesc xs)

/-- Key-activity extraction of `create_fallback_analysis`: the five most
frequent lowered words longer than 4 characters, with the placeholder
substituted when no word qualifies. -/
def fallback_key_activities (text : String) : List String :=
  let ka := ((sortByCountDesc (buildFreq (pySplit text))).take 5).map Prod.fst
  if ka.isEmpty then ["general activity"] else ka

/-- `create_fallback_analysis(text, context)` from `server.py`. -/
def create_fallback_analysis (text app_name : String) : AnalysisDict :=
  let cs := fallback_category_score (pyLower text)
  { summary := some ("User was engaged in " ++ pyLower cs.1 ++
      " activities in " ++ app_name),
    category := some cs.1,
    productivity_score := some cs.2,
    key_activities := some (fallback_key_activities text),
    suggestions := some ["Consider using AI analysis for better insights"],
    confidence := some (3/10) }

/-! ## Result cache (`server.py`, inside `analyze_with_ollama`)

`state.analysis_cache` is a Python dict, modelled as an insertion-ordered
association list. -/

abbrev Cache := List (String × AnalysisDict)

/-- The cache fingerprint `f"{text[:100]}_{context.app_name}_{model}"`. -/
def cacheKey (text app_name model : String) : String :=
  pyTake text 100 ++ "_" ++ app_name ++ "_" ++ model

/-- Python `key in cache` / `cache[key]` combined. -/
def cacheLookup (c : Cache) (k : String) : Option AnalysisDict :=
  (c.find? (fun p => p.1 == k)).map Prod.snd

/-- Python `cache[key] = v`: update in place if present, else append. -/
def cacheInsert (c : Cache) (k : String) (v : AnalysisDict) : Cache :=
  if c.any (fun p => p.1 == k) then
    c.map (fun p => if p.1 == k then (p.1, v) else p)
  else c ++ [(k, v)]

/-- Lines 201–207 of `server.py`: store the entry, then, if the cache now
exceeds 100 entries, delete the first 10 keys in insertion order. -/
def cachePut (c : Cache) (k : String) (v : AnalysisDict) : Cache :=
  let c1 := cacheInsert c k v
  if 100 < c1.length then c1.drop 10 else c1

/-! ## Server state and health monitor (`server.py`) -/

/-- `ServerState` from `server.py` (the wall-clock `start_time` and the
Prometheus metric objects are not modelled; `model_cache` is never read). -/
structure ServerState where
  total_analyses : Nat
  total_errors : Nat
  ollama_available : Bool
  available_models : List String
  analysis_cache : Cache
  cache_hits : Nat
  cache_misses : Nat

/-- Outcome of the probe's HTTP call in `check_ollama_health`: a 200 response
with a parseable model list, a non-2xx response delivered without an
exception, or an exception (connection failure, timeout, or a 200 body that
`response.json()` cannot parse). -/
inductive ProbeOutcome where
  | ok (models : List String)
  | badStatus (code : Nat)
  | exc

/-- `check_ollama_health` from `server.py`: on a parseable 200, record the
model list and set the availability flag; on an exception, clear only the
availability flag; on a non-2xx status the `if` is skipped and the function
falls through to `return False` without touching the state. -/
def check_ollama_health (st : ServerState) (p : ProbeOutcome) : Bool × ServerState :=
  match p with
  | .ok models => (true, { st with available_models := models, ollama_available := true })
  | .badStatus _ => (false, st)
  | .exc => (false, { st with ollama_available := false })

/-- `pull_model_if_needed` from `server.py`: a no-op when the model is known;
otherwise attempt the pull, and on a 200 re-run the health probe (whose
outcome `probe2` is passed in) and report success. -/
def pull_model_if_needed (model : String) (st : ServerState) (pullHttpOk : Bool)
    (probe2 : ProbeOutcome) : Bool × ServerState :=
  if st.available_models.contains model then (true, st)
  else if pullHttpOk then (true, (check_ollama_health st probe2).2)
  else (false, st)

/-! ## Backend call (`server.py`, `analyze_with_ollama`) -/

/-- Outcome of the `/api/generate` call: a 200 whose `response` field parses
as JSON (`ok (some d)`), a 200 whose `response` field is not valid JSON
(`ok none`), a non-2xx status, a timeout, or another exception. -/
inductive OllamaResponse where
  | ok (body : Option AnalysisDict)
  | httpError (code : Nat)
  | timeout
  | exc

/-- `analyze_with_ollama` from `server.py`: cache lookup first; on a miss,
count it and consult the backend; only a parseable 200 body is stored in the
cache (with batch eviction); every failure falls back to
`create_fallback_analysis`. -/
def analyze_with_ollama (text app_name model : String) (st : ServerState)
    (resp : OllamaResponse) : AnalysisDict × ServerState :=
  let key := cacheKey text app_name model
  match cacheLookup st.analysis_cache key with
  | some cached => (cached, { st with cache_hits := st.cache_hits + 1 })
  | none =>
    let st := { st with cache_misses := st.cache_misses + 1 }
    match resp with
    | .ok (some analysis) =>
        (analysis, { st with analysis_cache := cachePut st.analysis_cache key analysis })
    | .ok none => (create_fallback_analysis text app_name, st)
    | .httpError _ => (create_fallback_analysis text app_name, st)
    | .timeout => (create_fallback_analysis text app_name, st)
    | .exc => (create_fallback_analysis text app_name, st)

/-! ## Result construction and the `/analyze` route (`server.py`) -/

/-- The `AnalysisResult` pydantic model (timestamp and wall-clock latency not
modelled). -/
structure AnalysisResult where
  summary : String
  category : String
  productivity_score : ℚ
  key_activities : List String
  suggestions : Option (List String)
  processing_time_ms : ℚ
  model_used : String
  confidence : ℚ

/-- The clamp `min(10.0, max(0.0, ...))` applied to the productivity score. -/
def clampScore (q : ℚ) : ℚ := min 10 (max 0 q)

/-- Construction of `AnalysisResult` at lines 360–370 of `server.py`: the
productivity score is clamped, the confidence is read with default `0.5` and
passed through unclamped, and pydantic's field validators
(`productivity_score ∈ [0,10]`, `confidence ∈ [0,1]`) reject the
construction — `none`, caught as a 500-class error — when violated. -/
def buildResult (analysis : AnalysisDict) (model : String) (avail : Bool) :
    Option AnalysisResult :=
  let score := clampScore (analysis.productivity_score.getD 5)
  let conf := analysis.confidence.getD (1/2)
  if 0 ≤ score ∧ score ≤ 10 ∧ 0 ≤ conf ∧ conf ≤ 1 then
    some { summary := analysis.summary.getD "Activity analysis completed",
           category := analysis.category.getD "Other",
           productivity_score := score,
           key_activities := analysis.key_activities.getD [],
           suggestions := analysis.suggestions,
           processing_time_ms := 0,
           model_used := if avail then model else "heuristic",
           confidence := conf }
  else none

/-- Environment of one `/analyze` request: the outcomes of the (up to) four
HTTP calls the handler can make. -/
structure Env where
  probe1 : ProbeOutcome
  pullHttpOk : Bool
  probe2 : ProbeOutcome
  resp : OllamaResponse

/-- Lines 340–348 of `analyze_screenshot`: the opportunistic health probe when
the backend is flagged unavailable, followed by the on-demand model pull when
the requested model is unknown. -/
def stateAfterChecks (st0 : ServerState) (model : String) (env : Env) : ServerState :=
  let st1 := if st0.ollama_available then st0 else (check_ollama_health st0 env.probe1).2
  if st1.available_models.contains model then st1
  else (pull_model_if_needed model st1 env.pullHttpOk env.probe2).2

/-- Outcome of the `/analyze` route: a 200 with a result, the 400
`InvalidInput` rejection, or the 500 raised when result construction fails. -/
inductive AnalyzeOutcome where
  | ok (r : AnalysisResult)
  | invalidInput
  | internalError

/-- `analyze_screenshot` from `server.py`: validate, run health/model checks,
analyze via backend or heuristic, construct the result. A constructed result
bumps `total_analyses`; a construction failure bumps `total_errors`; the 400
rejection happens before any state mutation. -/
def analyze_screenshot (text app_name model : String) (st0 : ServerState)
    (env : Env) : AnalyzeOutcome × ServerState :=
  if text = "" ∨ (pyStrip text).length < 10 then (.invalidInput, st0)
  else
    let st2 := stateAfterChecks st0 model env
    let step :=
      if st2.ollama_available && st2.available_models.contains model then
        analyze_with_ollama text app_name model st2 env.resp
      else (create_fallback_analysis text app_name, st2)
    match buildResult step.1 model step.2.ollama_available with
    | some r => (.ok r, { step.2 with total_analyses := step.2.total_analyses + 1 })
    | none => (.internalError, { step.2 with total_errors := step.2.total_errors + 1 })

/-! ## Focus classifier (`focused_mock_server.py`) -/

def focus_app_mappings : List (String × List String) :=
  [("studying computer science", ["code", "xcode", "terminal", "stack overflow", "documentation"]),
   ("writing code", ["code", "xcode", "intellij", "sublime", "atom", "terminal"]),
   ("writing email", ["mail", "gmail", "outlook", "thunderbird"]),
   ("learning react", ["react", "documentation", "tutorial", "mdn", "javascript"]),
   ("designing", ["figma", "sketch", "photoshop", "illustrator", "design"]),
   ("analyzing", ["excel", "sheets", "tableau", "analytics", "dashboard"]),
   ("reading documentation", ["docs", "documentation", "api", "reference", "guide"]),
   ("debugging", ["debug", "console", "terminal", "error", "stack trace"]),
   ("meeting", ["zoom", "teams", "meet", "skype", "webex"]),
   ("presentation", ["powerpoint", "keynote", "slides", "deck"])]

def distractions : List String :=
  ["youtube", "netflix", "twitter", "facebook", "instagram", "reddit",
   "tiktok", "twitch", "spotify", "game", "whatsapp", "messenger"]

def work_keywords : List String :=
  ["project", "task", "meeting", "deadline", "client", "code",
   "function", "class", "email", "report", "analysis", "design"]

/-- A keyword occurring in the app name or in the text. -/
def occursIn (kw app_name text : String) : Bool :=
  containsStr app_name kw || containsStr text kw

/-- `classify_focus` from `focused_mock_server.py` (inputs already lowered, as
`do_POST` lowers them before the call). -/
def classify_focus (user_focus app_name text : String) : String × ℚ :=
  if distractions.any (fun d => occursIn d app_name text) then
    ("not_focused", 85/100)
  else if focus_app_mappings.any (fun p =>
      containsStr user_focus p.1 && p.2.any (fun a => occursIn a app_name text)) then
    ("focused", 88/100)
  else
    let work_count := (work_keywords.filter (fun kw => containsStr text kw)).length
    if 3 ≤ work_count then ("focused", 72/100)
    else if 1 ≤ work_count then ("focused", 55/100)
    else ("not_focused", 65/100)

/-- The lowering performed by `do_POST` before `classify_focus` is called
(the confidence jitter added afterwards is out of scope, as the spec's
"before jitter" phrasing acknowledges). -/
def classify_focus_route (user_focus app_name text : String) : String × ℚ :=
  classify_focus (pyLower user_focus) (pyLower app_name) (pyLower text)

/-! ## Evaluation scoring (`focused_evaluation.py`) -/

/-- A successful per-scenario outcome, as recorded by
`evaluate_single_scenario`. -/
structure ScenarioOutcome where
  predicted : String
  expected : String
  confidence : ℚ

/-- `correct_classification` for one outcome. -/
def isCorrect (o : ScenarioOutcome) : Bool := o.predicted == o.expected

/-- `confidence_quality`: the confidence when correct, its complement when
incorrect. -/
def confidence_quality (o : ScenarioOutcome) : ℚ :=
  if isCorrect o then o.confidence else 1 - o.confidence

/-- `classification_accuracy`: correct count over successful count. -/
def classification_accuracy (rs : List ScenarioOutcome) : ℚ :=
  (rs.countP isCorrect : ℚ) / (rs.length : ℚ)

/-- `avg_confidence_quality` (`np.mean` of the qualities). -/
def confidence_calibration (rs : List ScenarioOutcome) : ℚ :=
  ((rs.map confidence_quality).sum) / (rs.length : ℚ)

/-- `final_score = (accuracy * 0.6 + calibration * 0.4) * 100`. -/
def final_score (rs : List ScenarioOutcome) : ℚ :=
  (classification_accuracy rs * (6/10) + confidence_calibration rs * (4/10)) * 100

/-! ## Helper lemmas -/

theorem length_dropWhile_le (p : Char → Bool) (l : List Char) :
    (l.dropWhile p).length ≤ l.length := by
  induction l with
  | nil => simp
  | cons a as ih =>
    simp only [List.dropWhile]
    split
    · simp only [List.length_cons]; omega
    · simp

theorem pyStrip_length_le (s : String) : (pyStrip s).length ≤ s.length := by
  have h1 := length_dropWhile_le Char.isWhitespace s.data
  have h2 := length_dropWhile_le Char.isWhitespace
    (s.data.dropWhile Char.isWhitespace).reverse
  simp only [pyStrip, String.length, List.length_reverse] at *
  omega

theorem clampScore_nonneg (q : ℚ) : 0 ≤ clampScore q :=
  le_min (by norm_num) (le_max_left 0 q)

theorem clampScore_le_ten (q : ℚ) : clampScore q ≤ 10 := min_le_left 10 _

/-- What a successful `AnalysisResult` construction pins down. -/
theorem buildResult_spec (d : AnalysisDict) (model : String) (avail : Bool)
    (r : AnalysisResult) (h : buildResult d model avail = some r) :
    r.model_used = (if avail then model else "heuristic") ∧
    r.confidence = d.confidence.getD (1/2) ∧
    r.productivity_score = clampScore (d.productivity_score.getD 5) := by
  simp only [buildResult] at h
  split at h
  · injection h with h'
    subst h'
    exact ⟨rfl, rfl, rfl⟩
  · exact Option.noConfusion h

/-- `check_ollama_health` never touches the cache or the counters. -/
theorem check_ollama_health_frame (st : ServerState) (p : ProbeOutcome) :
    (check_ollama_health st p).2.analysis_cache = st.analysis_cache ∧
    (check_ollama_health st p).2.total_analyses = st.total_analyses ∧
    (check_ollama_health st p).2.total_errors = st.total_errors := by
  cases p <;> exact ⟨rfl, rfl, rfl⟩

/-- `pull_model_if_needed` never touches the cache. -/
theorem pull_model_frame (model : String) (st : ServerState) (ok : Bool)
    (p2 : ProbeOutcome) :
    (pull_model_if_needed model st ok p2).2.analysis_cache = st.analysis_cache := by
  unfold pull_model_if_needed
  split_ifs
  · rfl
  · exact (check_ollama_health_frame st p2).1
  · rfl

/-- The health/model checks preceding the analysis leave the cache alone. -/
theorem stateAfterChecks_cache (st0 : ServerState) (model : String) (env : Env) :
    (stateAfterChecks st0 model env).analysis_cache = st0.analysis_cache := by
  unfold stateAfterChecks
  by_cases h0 : st0.ollama_available <;> simp only [h0, if_true, if_false] <;>
    split_ifs <;>
    simp [pull_model_frame, (check_ollama_health_frame st0 env.probe1).1,
      pull_model_frame model ((check_ollama_health st0 env.probe1).2)]

/-- `analyze_with_ollama` does not change the availability flag or the model
list. -/
theorem analyze_with_ollama_avail (text app_name model : String)
    (st : ServerState) (resp : OllamaResponse) :
    (analyze_with_ollama text app_name model st resp).2.ollama_available =
      st.ollama_available := by
  simp only [analyze_with_ollama]
  cases h : cacheLookup st.analysis_cache (cacheKey text app_name model) with
  | some cached => simp [h]
  | none =>
    cases resp with
    | ok body => cases body <;> simp [h]
    | httpError code => simp [h]
    | timeout => simp [h]
    | exc => simp [h]

/-- Cache evolution of `analyze_with_ollama`: either untouched, or (on a miss
answered by a parseable 200) extended through `cachePut`. -/
theorem analyze_with_ollama_cache (text app_name model : String)
    (st : ServerState) (resp : OllamaResponse) :
    (analyze_with_ollama text app_name model st resp).2.analysis_cache =
        st.analysis_cache ∨
    (∃ d, resp = OllamaResponse.ok (some d) ∧
      cacheLookup st.analysis_cache (cacheKey text app_name model) = none ∧
      (analyze_with_ollama text app_name model st resp).2.analysis_cache =
        cachePut st.analysis_cache (cacheKey text app_name model) d) := by
  simp only [analyze_with_ollama]
  cases h : cacheLookup st.analysis_cache (cacheKey text app_name model) with
  | some cached => left; simp [h]
  | none =>
    cases resp with
    | ok body =>
      cases body with
      | some d => right; exact ⟨d, rfl, by simp [h], by simp [h]⟩
      | none => left; simp [h]
    | httpError code => left; simp [h]
    | timeout => left; simp [h]
    | exc => left; simp [h]

theorem mem_insertCountDesc {x y : String × Nat} {l : List (String × Nat)}
    (h : y ∈ insertCountDesc x l) : y = x ∨ y ∈ l := by
  induction l with
  | nil =>
    simp only [insertCountDesc, List.mem_singleton] at h
    exact .inl h
  | cons z zs ih =>
    unfold insertCountDesc at h
    split_ifs at h
    · simpa using h
    · rcases List.mem_cons.1 h with h1 | h1
      · exact .inr (List.mem_cons.2 (.inl h1))
      · rcases ih h1 with h2 | h2
        · exact .inl h2
        · exact .inr (List.mem_cons.2 (.inr h2))

theorem mem_sortByCountDesc {y : String × Nat} {l : List (String × Nat)}
    (h : y ∈ sortByCountDesc l) : y ∈ l := by
  induction l with
  | nil =>
    simp only [sortByCountDesc] at h
    exact absurd h (List.not_mem_nil y)
  | cons z zs ih =>
    unfold sortByCountDesc at h
    rcases mem_insertCountDesc h with h1 | h1
    · exact List.mem_cons.2 (.inl h1)
    · exact List.mem_cons.2 (.inr (ih h1))

theorem mem_bumpFreq {p : String × Nat} {m : List (String × Nat)} {w : String}
    (h : p ∈ bumpFreq m w) : p.1 = w ∨ ∃ q ∈ m, p.1 = q.1 := by
  unfold bumpFreq at h
  split_ifs at h
  · rcases List.mem_map.1 h with ⟨q, hq, he⟩
    right
    refine ⟨q, hq, ?_⟩
    by_cases hqw : q.1 == w <;> simp [hqw] at he <;> simp [← he]
  · rcases List.mem_append.1 h with h1 | h1
    · right; exact ⟨p, h1, rfl⟩
    · left; simp at h1; simp [h1]

theorem foldl_freqStep_keys (ws : List String) :
    ∀ (m : List (String × Nat)) (p : String × Nat), p ∈ ws.foldl freqStep m →
      (∃ q ∈ m, p.1 = q.1) ∨
      ∃ tok ∈ ws, 4 < tok.length ∧ p.1 = pyLower tok := by
  induction ws with
  | nil => exact fun m p h => .inl ⟨p, h, rfl⟩
  | cons w ws ih =>
    intro m p h
    simp only [List.foldl_cons] at h
    rcases ih (freqStep m w) p h with ⟨q, hq, hpe⟩ | ⟨tok, htok, hlen, he⟩
    · unfold freqStep at hq
      split_ifs at hq with hl
      · rcases mem_bumpFreq hq with h1 | ⟨q', hq', he'⟩
        · right
          exact ⟨w, List.mem_cons.2 (.inl rfl), hl, by rw [hpe, h1]⟩
        · left; exact ⟨q', hq', hpe.trans he'⟩
      · left; exact ⟨q, hq, hpe⟩
    · right; exact ⟨tok, List.mem_cons.2 (.inr htok), hlen, he⟩

theorem buildFreq_keys {p : String × Nat} {ws : List String}
    (h : p ∈ buildFreq ws) :
    ∃ tok ∈ ws, 4 < tok.length ∧ p.1 = pyLower tok := by
  rcases foldl_freqStep_keys ws [] p h with ⟨q, hq, _⟩ | h2
  · simp at hq
  · exact h2

/-! ## Claim theorems -/

/-- C10: for every input, the heuristic fallback returns a category among
Programming, Communication, Research, Documentation, Design, Media and Other
with fixed confidence 0.3; the declared vocabulary member "System" is never
produced by this path. -/
theorem fallback_category_vocabulary (text app_name : String) :
    (create_fallback_analysis text app_name).category ∈
      [some "Programming", some "Communication", some "Research",
       some "Documentation", some "Design", some "Media", some "Other"] ∧
    (create_fallback_analysis text app_name).category ≠ some "System" ∧
    (create_fallback_analysis text app_name).confidence = some (3/10) := by
  have hc : (create_fallback_analysis text app_name).category =
      some (fallback_category_score (pyLower text)).1 := rfl
  have hconf : (create_fallback_analysis text app_name).confidence =
      some (3/10) := rfl
  refine ⟨?_, ?_, hconf⟩ <;> rw [hc] <;> unfold fallback_category_score <;>
    split_ifs <;> simp

/-- The three successful outcomes of the spec's evaluation-scoring example. -/
def exampleOutcomes : List ScenarioOutcome :=
  [⟨"focused", "focused", 92/100⟩,
   ⟨"not_focused", "not_focused", 88/100⟩,
   ⟨"focused", "focused", 61/100⟩]

/-- C7: per-scenario confidence quality is the confidence when the prediction
matches the expectation and its complement otherwise; calibration is the mean
quality, accuracy is the correct fraction of successful outcomes, and
`final_score = 100 * (0.6 * accuracy + 0.4 * calibration)`. On the example
outcomes (focused 0.92 correct, not_focused 0.88 correct, focused 0.61
correct) this gives accuracy 1, qualities [0.92, 0.88, 0.61], calibration
241/300 (within 0.001 of 0.803) and final score 1382/15 (within 0.05 of
92.1). -/
theorem evaluation_scoring_law :
    (∀ o : ScenarioOutcome, confidence_quality o =
      if o.predicted = o.expected then o.confidence else 1 - o.confidence) ∧
    (∀ rs : List ScenarioOutcome,
      classification_accuracy rs = (rs.countP isCorrect : ℚ) / rs.length) ∧
    (∀ rs : List ScenarioOutcome,
      confidence_calibration rs = (rs.map confidence_quality).sum / rs.length) ∧
    (∀ rs : List ScenarioOutcome, final_score rs =
      100 * ((6/10) * classification_accuracy rs +
             (4/10) * confidence_calibration rs)) ∧
    classification_accuracy exampleOutcomes = 1 ∧
    exampleOutcomes.map confidence_quality = [92/100, 88/100, 61/100] ∧
    confidence_calibration exampleOutcomes = 241/300 ∧
    (241:ℚ)/300 - 803/1000 < 1/1000 ∧ (803:ℚ)/1000 - 241/300 < 1/1000 ∧
    final_score exampleOutcomes = 1382/15 ∧
    (1382:ℚ)/15 - 921/10 < 1/20 ∧ (921:ℚ)/10 - 1382/15 < 1/20 := by
  have hmap : exampleOutcomes.map confidence_quality = [92/100, 88/100, 61/100] := by
    simp [exampleOutcomes, confidence_quality, isCorrect]
  have hacc : classification_accuracy exampleOutcomes = 1 := by
    simp [classification_accuracy, exampleOutcomes, List.countP_cons, isCorrect]
  have hcal : confidence_calibration exampleOutcomes = 241/300 := by
    simp only [confidence_calibration, hmap]
    norm_num [exampleOutcomes]
  refine ⟨?_, fun _ => rfl, fun _ => rfl, fun rs => by unfold final_score; ring,
    hacc, hmap, hcal, by norm_num, by norm_num, ?_, by norm_num, by norm_num⟩
  · intro o
    by_cases h : o.predicted = o.expected <;>
      simp [confidence_quality, isCorrect, h]
  · unfold final_score
    rw [hacc, hcal]
    norm_num

/-- C4 as amended: a parseable 200 probe makes the monitor healthy and records
the model list; an exception-class failure (timeout, connection error,
malformed body) marks it degraded but leaves the known-model list unchanged;
a non-2xx response delivered without an exception changes nothing at all. -/
theorem health_probe_transitions :
    (∀ (st : ServerState) (models : List String),
      check_ollama_health st (.ok models) =
        (true, { st with available_models := models, ollama_available := true })) ∧
    (∀ (st : ServerState) (code : Nat),
      check_ollama_health st (.badStatus code) = (false, st)) ∧
    (∀ st : ServerState,
      check_ollama_health st .exc = (false, { st with ollama_available := false })) :=
  ⟨fun _ _ => rfl, fun _ _ => rfl, fun _ => rfl⟩

/-- A healthy state with one recorded model, used to refute C4 as stated. -/
def healthySt : ServerState :=
  { total_analyses := 0, total_errors := 0, ollama_available := true,
    available_models := ["dolphin-mistral:latest"], analysis_cache := [],
    cache_hits := 0, cache_misses := 0 }

/-- C4 counterexample: after a non-2xx probe response the monitor is still
marked available with its model list intact (the claim demands DEGRADED and
an empty list), and even after an exception-class failure the model list is
not cleared. -/
theorem health_probe_counterexample :
    (check_ollama_health healthySt (.badStatus 500)).2.ollama_available = true ∧
    (check_ollama_health healthySt (.badStatus 500)).2.available_models =
      ["dolphin-mistral:latest"] ∧
    (check_ollama_health healthySt .exc).2.available_models =
      ["dolphin-mistral:latest"] ∧
    (check_ollama_health healthySt .exc).2.available_models ≠ [] :=
  ⟨rfl, rfl, rfl, by decide⟩

/-- C2: on a cache holding 100 entries, inserting a fresh key appends it and
then evicts the 10 oldest-inserted entries in one batch, leaving exactly
`c.drop 10 ++ [(k, v)]` — 91 entries; and a cache hit inside
`analyze_with_ollama` returns the cached value with the cache list (hence the
insertion order used for eviction) unchanged, so a get never re-promotes an
entry. -/
theorem cache_batch_eviction (c : Cache) (k : String) (v : AnalysisDict)
    (h100 : c.length = 100) (hfresh : c.any (fun p => p.1 == k) = false) :
    cachePut c k v = c.drop 10 ++ [(k, v)] ∧
    (cachePut c k v).length = 91 ∧
    (∀ (st : ServerState) (text app_name model : String)
        (resp : OllamaResponse) (d : AnalysisDict),
      cacheLookup st.analysis_cache (cacheKey text app_name model) = some d →
      analyze_with_ollama text app_name model st resp =
        (d, { st with cache_hits := st.cache_hits + 1 })) := by
  have hins : cacheInsert c k v = c ++ [(k, v)] := by
    unfold cacheInsert
    rw [hfresh]
    simp
  have hput : cachePut c k v = c.drop 10 ++ [(k, v)] := by
    unfold cachePut
    rw [hins]
    rw [if_pos (by simp [h100])]
    rw [List.drop_append_eq_append_drop]
    simp [h100]
  refine ⟨hput, ?_, ?_⟩
  · rw [hput]
    simp [h100]
  · intro st text app_name model resp d h
    simp only [analyze_with_ollama]
    rw [h]

/-- A 100-entry cache with keys "0" … "99". -/
def witnessCache : Cache := (List.range 100).map (fun i => (toString i, emptyDict))

/-- A state whose cache already holds the entry for text "0123456789", app
"a", model "m". -/
def hitSt : ServerState :=
  { total_analyses := 0, total_errors := 0, ollama_available := true,
    available_models := [], analysis_cache := [("0123456789_a_m", emptyDict)],
    cache_hits := 0, cache_misses := 0 }

/-- Witness for C2: the eviction law evaluated on a concrete 100-entry cache
and a concrete cache hit. -/
theorem cache_batch_eviction_witness :
    cachePut witnessCache "fresh" emptyDict =
      witnessCache.drop 10 ++ [("fresh", emptyDict)] ∧
    (cachePut witnessCache "fresh" emptyDict).length = 91 ∧
    analyze_with_ollama "0123456789" "a" "m" hitSt OllamaResponse.timeout =
      (emptyDict, { hitSt with cache_hits := 1 }) := by
  have h := cache_batch_eviction witnessCache "fresh" emptyDict
    (by simp [witnessCache]) (by decide)
  exact ⟨h.1, h.2.1,
    h.2.2 hitSt "0123456789" "a" "m" OllamaResponse.timeout emptyDict rfl⟩

/-- C8: a request whose text has fewer than 10 characters (which covers the
empty text and forces the stripped length below 10 as well) is rejected as
`InvalidInput` with the entire server state — every counter and the cache —
returned untouched. -/
theorem invalid_input_rejected (text app_name model : String)
    (st : ServerState) (env : Env) (h : text.length < 10) :
    analyze_screenshot text app_name model st env = (.invalidInput, st) := by
  have hle := pyStrip_length_le text
  unfold analyze_screenshot
  rw [if_pos (Or.inr (by omega))]

/-- A fresh server state, as at process start. -/
def freshSt : ServerState :=
  { total_analyses := 0, total_errors := 0, ollama_available := false,
    available_models := [], analysis_cache := [], cache_hits := 0,
    cache_misses := 0 }

/-- An environment in which every backend interaction fails. -/
def failEnv : Env :=
  { probe1 := .exc, pullHttpOk := false, probe2 := .exc, resp := .timeout }

/-- Witness for C8: the one-character text "H" is rejected and the state is
returned unchanged. -/
theorem invalid_input_rejected_witness :
    ("H" : String).length < 10 ∧
    analyze_screenshot "H" "TextEdit" "dolphin-mistral:latest" freshSt failEnv =
      (.invalidInput, freshSt) :=
  ⟨by decide, invalid_input_rejected "H" "TextEdit" "dolphin-mistral:latest"
    freshSt failEnv (by decide)⟩

/-- C3: across a whole `/analyze` request, the result cache either stays
exactly as it was — in particular whenever the heuristic fallback produced
the result, for any cause (backend flagged unavailable, model missing,
non-2xx, timeout, malformed JSON), and on validation failures and cache hits
— or, only when the backend call returned a 200 whose body parsed as JSON,
it is updated through `cachePut` with that parsed body. -/
theorem cache_only_backend_success (text app_name model : String)
    (st0 : ServerState) (env : Env) :
    (analyze_screenshot text app_name model st0 env).2.analysis_cache =
        st0.analysis_cache ∨
    (∃ d, env.resp = OllamaResponse.ok (some d) ∧
      (analyze_screenshot text app_name model st0 env).2.analysis_cache =
        cachePut st0.analysis_cache (cacheKey text app_name model) d) := by
  unfold analyze_screenshot
  by_cases hval : text = "" ∨ (pyStrip text).length < 10
  · rw [if_pos hval]; left; rfl
  · rw [if_neg hval]
    have hcache := stateAfterChecks_cache st0 model env
    by_cases hb : (stateAfterChecks st0 model env).ollama_available &&
        (stateAfterChecks st0 model env).available_models.contains model
    · simp only [hb, if_true]
      rcases analyze_with_ollama_cache text app_name model
          (stateAfterChecks st0 model env) env.resp with h1 | ⟨d, hd, _, h1⟩
      · left
        cases hbr : buildResult
            (analyze_with_ollama text app_name model
              (stateAfterChecks st0 model env) env.resp).1 model
            (analyze_with_ollama text app_name model
              (stateAfterChecks st0 model env) env.resp).2.ollama_available <;>
          simp [hbr, h1, hcache]
      · right
        refine ⟨d, hd, ?_⟩
        rw [hcache] at h1
        cases hbr : buildResult
            (analyze_with_ollama text app_name model
              (stateAfterChecks st0 model env) env.resp).1 model
            (analyze_with_ollama text app_name model
              (stateAfterChecks st0 model env) env.resp).2.ollama_available <;>
          simp [hbr, h1]
    · simp only [hb, if_false]
      left
      cases hbr : buildResult (create_fallback_analysis text app_name) model
          (stateAfterChecks st0 model env).ollama_available <;>
        simp [hbr, hcache]

/-- C1 as amended: the orchestrator clamps only the productivity score into
[0,10]; the confidence is passed to result construction unclamped, and
construction fails (a 500-class error, not a 200) exactly when that raw
confidence lies outside [0,1]. Consequently every successfully returned
result does satisfy productivity_score ∈ [0,10] and confidence ∈ [0,1] — by
validation, not by clamping. -/
theorem clamping_amended (d : AnalysisDict) (model : String) (avail : Bool) :
    (∀ r, buildResult d model avail = some r →
      0 ≤ r.productivity_score ∧ r.productivity_score ≤ 10 ∧
      0 ≤ r.confidence ∧ r.confidence ≤ 1 ∧
      r.productivity_score = clampScore (d.productivity_score.getD 5) ∧
      r.confidence = d.confidence.getD (1/2)) ∧
    (buildResult d model avail = none ↔
      ¬(0 ≤ d.confidence.getD (1/2) ∧ d.confidence.getD (1/2) ≤ 1)) := by
  have hiff : buildResult d model avail = none ↔
      ¬(0 ≤ d.confidence.getD (1/2) ∧ d.confidence.getD (1/2) ≤ 1) := by
    simp only [buildResult]
    split_ifs with h
    · exact iff_of_false (by simp) (not_not_intro ⟨h.2.2.1, h.2.2.2⟩)
    · exact iff_of_true rfl
        (fun hc => h ⟨clampScore_nonneg _, clampScore_le_ten _, hc.1, hc.2⟩)
  refine ⟨?_, hiff⟩
  intro r h
  obtain ⟨_, hcf, hps⟩ := buildResult_spec d model avail r h
  have hne : ¬ buildResult d model avail = none := by simp [h]
  have hrange := not_not.mp (fun hn => hne (hiff.mpr hn))
  refine ⟨?_, ?_, ?_, ?_, hps, hcf⟩
  · rw [hps]; exact clampScore_nonneg _
  · rw [hps]; exact clampScore_le_ten _
  · rw [hcf]; exact hrange.1
  · rw [hcf]; exact hrange.2

/-- A backend body whose productivity score (12) is out of range and must be
clamped, with an in-range confidence. -/
def overScoreDict : AnalysisDict := ⟨none, none, some 12, none, none, some (7/10)⟩

/-- The result the server constructs from `overScoreDict`. -/
def overScoreResult : AnalysisResult :=
  { summary := "Activity analysis completed", category := "Other",
    productivity_score := 10, key_activities := [], suggestions := none,
    processing_time_ms := 0, model_used := "dolphin-mistral:latest",
    confidence := 7/10 }

/-- Witness for C1 as amended: a backend score of 12 is clamped to 10 and the
in-range confidence 0.7 passes through. -/
theorem clamping_amended_witness :
    0 ≤ overScoreResult.productivity_score ∧
    overScoreResult.productivity_score ≤ 10 ∧
    0 ≤ overScoreResult.confidence ∧ overScoreResult.confidence ≤ 1 ∧
    overScoreResult.productivity_score =
      clampScore (overScoreDict.productivity_score.getD 5) ∧
    overScoreResult.confidence = overScoreDict.confidence.getD (1/2) := by
  have h12 : clampScore 12 = 10 := by
    rw [clampScore, max_eq_right, min_eq_left] <;> norm_num
  exact (clamping_amended overScoreDict "dolphin-mistral:latest" true).1
    overScoreResult
    (by simp only [buildResult, overScoreDict, Option.getD_some, h12]
        rw [if_pos (by norm_num)]
        rfl)

/-- A backend body carrying the out-of-range confidence 1.5. -/
def badConfDict : AnalysisDict := ⟨none, none, some 5, none, none, some (3/2)⟩

/-- A healthy state in which the requested model is available. -/
def c1St : ServerState :=
  { total_analyses := 0, total_errors := 0, ollama_available := true,
    available_models := ["dolphin-mistral:latest"], analysis_cache := [],
    cache_hits := 0, cache_misses := 0 }

/-- An environment whose backend call returns a 200 with `badConfDict`. -/
def c1Env : Env :=
  { probe1 := .exc, pullHttpOk := false, probe2 := .exc,
    resp := .ok (some badConfDict) }

/-- C1 counterexample: the confidence is not clamped. A valid request whose
backend 200 body carries confidence 1.5 does not yield a 200 with confidence
clamped to 1 — result construction fails, the request ends as a 500-class
`internalError`, and the error counter is bumped. -/
theorem clamping_counterexample :
    badConfDict.confidence = some (3/2) ∧
    buildResult badConfDict "dolphin-mistral:latest" true = none ∧
    (analyze_screenshot "writing quarterly report today" "TextEdit"
        "dolphin-mistral:latest" c1St c1Env).1 = AnalyzeOutcome.internalError ∧
    (analyze_screenshot "writing quarterly report today" "TextEdit"
        "dolphin-mistral:latest" c1St c1Env).2.total_errors = 1 := by
  have hbn : buildResult badConfDict "dolphin-mistral:latest" true = none := by
    simp only [buildResult, badConfDict, Option.getD_some]
    rw [if_neg]
    intro hc
    have := hc.2.2.2
    norm_num at this
  have hrun : ∀ u : AnalyzeOutcome × ServerState,
      u = analyze_screenshot "writing quarterly report today" "TextEdit"
        "dolphin-mistral:latest" c1St c1Env →
      u.1 = AnalyzeOutcome.internalError ∧ u.2.total_errors = 1 := by
    intro u hu
    rw [hu]
    simp only [analyze_screenshot]
    rw [if_neg (by decide)]
    rw [show stateAfterChecks c1St "dolphin-mistral:latest" c1Env = c1St from rfl]
    rw [show (c1St.ollama_available &&
        c1St.available_models.contains "dolphin-mistral:latest") = true from rfl]
    simp only [if_true]
    rw [show analyze_with_ollama "writing quarterly report today" "TextEdit"
        "dolphin-mistral:latest" c1St c1Env.resp =
        (badConfDict,
         { total_analyses := 0, total_errors := 0, ollama_available := true,
           available_models := ["dolphin-mistral:latest"],
           analysis_cache := [(cacheKey "writing quarterly report today"
             "TextEdit" "dolphin-mistral:latest", badConfDict)],
           cache_hits := 0, cache_misses := 1 }) from rfl]
    simp [hbn]
  exact ⟨rfl, hbn, (hrun _ rfl).1, (hrun _ rfl).2⟩

/-- C5 as amended: the `model_used` field records the requested model id
whenever `state.ollama_available` is true at result-construction time and the
"heuristic" sentinel only when that flag is false — the flag, not the path
that produced the result, decides the label (so a fallback run while the flag
is true carries the requested model id). When the flag is false the result
does come from the heuristic and carries confidence 0.3, below a confident
backend call. -/
theorem model_used_amended (text app_name model : String) (st0 : ServerState)
    (env : Env) (r : AnalysisResult) (st' : ServerState)
    (h : analyze_screenshot text app_name model st0 env = (.ok r, st')) :
    r.model_used =
      (if (stateAfterChecks st0 model env).ollama_available then model
       else "heuristic") ∧
    ((stateAfterChecks st0 model env).ollama_available = false →
      r.model_used = "heuristic" ∧ r.confidence = 3/10) := by
  unfold analyze_screenshot at h
  by_cases hval : text = "" ∨ (pyStrip text).length < 10
  · rw [if_pos hval] at h
    exact absurd (congrArg Prod.fst h) (by simp)
  · rw [if_neg hval] at h
    by_cases hb : (stateAfterChecks st0 model env).ollama_available &&
        (stateAfterChecks st0 model env).available_models.contains model
    · simp only [hb, if_true] at h
      have hav : (stateAfterChecks st0 model env).ollama_available = true := by
        rw [Bool.and_eq_true] at hb
        exact hb.1
      cases hbr : buildResult
          (analyze_with_ollama text app_name model
            (stateAfterChecks st0 model env) env.resp).1 model
          (analyze_with_ollama text app_name model
            (stateAfterChecks st0 model env) env.resp).2.ollama_available with
      | none => rw [hbr] at h; exact absurd (congrArg Prod.fst h) (by simp)
      | some r' =>
        rw [hbr] at h
        have hr : r' = r := by
          have := congrArg Prod.fst h
          simpa using this
        subst hr
        obtain ⟨hm, _, _⟩ := buildResult_spec _ _ _ _ hbr
        rw [analyze_with_ollama_avail, hav] at hm
        constructor
        · rw [hm, hav]
        · intro habs
          rw [hav] at habs
          exact absurd habs (by simp)
    · rw [Bool.not_eq_true] at hb
      simp only [hb, Bool.false_eq_true, if_false] at h
      cases hbr : buildResult (create_fallback_analysis text app_name) model
          (stateAfterChecks st0 model env).ollama_available with
      | none => rw [hbr] at h; exact absurd (congrArg Prod.fst h) (by simp)
      | some r' =>
        rw [hbr] at h
        have hr : r' = r := by
          have := congrArg Prod.fst h
          simpa using this
        subst hr
        obtain ⟨hm, hcf, _⟩ := buildResult_spec _ _ _ _ hbr
        refine ⟨hm, fun hav => ⟨?_, ?_⟩⟩
        · rw [hm, hav]; simp
        · rw [hcf]
          rfl

/-- The backend body the heuristic produces for the text
"writing quarterly report today" in app "TextEdit". -/
def reportDict : AnalysisDict :=
  { summary := some "User was engaged in documentation activities in TextEdit",
    category := some "Documentation", productivity_score := some (15/2),
    key_activities := some ["writing", "quarterly", "report", "today"],
    suggestions := some ["Consider using AI analysis for better insights"],
    confidence := some (3/10) }

/-- The result built from `reportDict` while the availability flag is false. -/
def reportResultHeuristic : AnalysisResult :=
  { summary := "User was engaged in documentation activities in TextEdit",
    category := "Documentation", productivity_score := 15/2,
    key_activities := ["writing", "quarterly", "report", "today"],
    suggestions := some ["Consider using AI analysis for better insights"],
    processing_time_ms := 0, model_used := "heuristic", confidence := 3/10 }

theorem reportDict_eq :
    create_fallback_analysis "writing quarterly report today" "TextEdit" =
      reportDict := rfl

theorem clampScore_fifteen_halves : clampScore (15/2) = 15/2 := by
  rw [clampScore, max_eq_right, min_eq_right] <;> norm_num

theorem buildResult_reportDict_heuristic :
    buildResult reportDict "dolphin-mistral:latest" false =
      some reportResultHeuristic := by
  simp only [buildResult, reportDict, Option.getD_some, clampScore_fifteen_halves]
  rw [if_pos (by norm_num)]
  rfl

/-- Witness for C5 as amended: on a degraded backend (flag false) a valid
request is answered by the heuristic with `model_used = "heuristic"` and
confidence 0.3. -/
theorem model_used_amended_witness :
    reportResultHeuristic.model_used =
      (if (stateAfterChecks freshSt "dolphin-mistral:latest" failEnv).ollama_available
       then "dolphin-mistral:latest" else "heuristic") ∧
    ((stateAfterChecks freshSt "dolphin-mistral:latest" failEnv).ollama_available = false →
      reportResultHeuristic.model_used = "heuristic" ∧
      reportResultHeuristic.confidence = 3/10) := by
  have hok : analyze_screenshot "writing quarterly report today" "TextEdit"
      "dolphin-mistral:latest" freshSt failEnv =
      (.ok reportResultHeuristic, { freshSt with total_analyses := 1 }) := by
    simp only [analyze_screenshot]
    rw [if_neg (by decide)]
    rw [show stateAfterChecks freshSt "dolphin-mistral:latest" failEnv = freshSt
      from rfl]
    rw [show (freshSt.ollama_available &&
        freshSt.available_models.contains "dolphin-mistral:latest") = false
      from rfl]
    simp only [Bool.false_eq_true, if_false]
    rw [reportDict_eq, show freshSt.ollama_available = false from rfl,
      buildResult_reportDict_heuristic]
    rfl
  exact model_used_amended "writing quarterly report today" "TextEdit"
    "dolphin-mistral:latest" freshSt failEnv reportResultHeuristic
    { freshSt with total_analyses := 1 } hok

/-- A state whose backend is flagged available but knows no models, so the
model pull fails and the heuristic serves the request while the flag stays
true. -/
def availNoModelSt : ServerState :=
  { total_analyses := 0, total_errors := 0, ollama_available := true,
    available_models := [], analysis_cache := [], cache_hits := 0,
    cache_misses := 0 }

/-- The same heuristic result labelled with the requested model id. -/
def reportResultMislabeled : AnalysisResult :=
  { summary := "User was engaged in documentation activities in TextEdit",
    category := "Documentation", productivity_score := 15/2,
    key_activities := ["writing", "quarterly", "report", "today"],
    suggestions := some ["Consider using AI analysis for better insights"],
    processing_time_ms := 0, model_used := "dolphin-mistral:latest",
    confidence := 3/10 }

/-- C5 counterexample: with the backend flagged available but the requested
model missing (and the pull failing), the heuristic fallback produces the
result — visible in its fixed confidence 0.3 — yet `model_used` is the
requested model id, not the "heuristic" sentinel the claim demands. -/
theorem model_used_counterexample :
    (analyze_screenshot "writing quarterly report today" "TextEdit"
        "dolphin-mistral:latest" availNoModelSt failEnv).1 =
      AnalyzeOutcome.ok reportResultMislabeled ∧
    reportResultMislabeled.confidence = 3/10 ∧
    reportResultMislabeled.model_used = "dolphin-mistral:latest" ∧
    reportResultMislabeled.model_used ≠ "heuristic" := by
  have hbuild : buildResult reportDict "dolphin-mistral:latest" true =
      some reportResultMislabeled := by
    simp only [buildResult, reportDict, Option.getD_some,
      clampScore_fifteen_halves]
    rw [if_pos (by norm_num)]
    rfl
  refine ⟨?_, rfl, rfl, by decide⟩
  simp only [analyze_screenshot]
  rw [if_neg (by decide)]
  rw [show stateAfterChecks availNoModelSt "dolphin-mistral:latest" failEnv =
    availNoModelSt from rfl]
  rw [show (availNoModelSt.ollama_available &&
      availNoModelSt.available_models.contains "dolphin-mistral:latest") = false
    from rfl]
  simp only [Bool.false_eq_true, if_false]
  rw [reportDict_eq, show availNoModelSt.ollama_available = true from rfl,
    hbuild]

/-- C6: the focus classifier is a strict decision tree in the stated order:
any distraction keyword in app name or text gives (not_focused, 0.85); else a
focus-table entry matched by the goal with a related keyword present gives
(focused, 0.88); else the work-keyword count decides — ≥3 gives
(focused, 0.72), ≥1 gives (focused, 0.55), 0 gives (not_focused, 0.65). In
particular the two spec examples: "Studying Computer Science" in YouTube with
"youtube" in the text gives (not_focused, 0.85), and the same goal in Visual
Studio Code with "class BinaryTree" in the text gives (focused, 0.88),
before jitter. -/
theorem focus_decision_tree :
    (∀ g a t, (∃ d ∈ distractions, occursIn d a t = true) →
      classify_focus g a t = ("not_focused", 85/100)) ∧
    (∀ g a t, (∀ d ∈ distractions, occursIn d a t = false) →
      (∃ p ∈ focus_app_mappings, containsStr g p.1 = true ∧
        ∃ k ∈ p.2, occursIn k a t = true) →
      classify_focus g a t = ("focused", 88/100)) ∧
    (∀ g a t, (∀ d ∈ distractions, occursIn d a t = false) →
      (∀ p ∈ focus_app_mappings, containsStr g p.1 = false ∨
        ∀ k ∈ p.2, occursIn k a t = false) →
      classify_focus g a t =
        (if 3 ≤ (work_keywords.filter (fun kw => containsStr t kw)).length then
          ("focused", 72/100)
         else if 1 ≤ (work_keywords.filter (fun kw => containsStr t kw)).length then
          ("focused", 55/100)
         else ("not_focused", 65/100))) ∧
    classify_focus_route "Studying Computer Science" "YouTube"
      "Now Playing: youtube cat videos compilation" = ("not_focused", 85/100) ∧
    classify_focus_route "Studying Computer Science" "Visual Studio Code"
      "class BinaryTree: def insert(self, value)" = ("focused", 88/100) := by
  have hno1 : ∀ a t, (∀ d ∈ distractions, occursIn d a t = false) →
      distractions.any (fun d => occursIn d a t) = false := by
    intro a t h1
    exact List.any_eq_false.2 (fun d hd => by rw [h1 d hd]; simp)
  refine ⟨?_, ?_, ?_, rfl, rfl⟩
  · intro g a t ⟨d, hd, hocc⟩
    unfold classify_focus
    rw [if_pos (List.any_eq_true.2 ⟨d, hd, hocc⟩)]
  · intro g a t h1 ⟨p, hp, hg, k, hk, hocc⟩
    unfold classify_focus
    have hcond : (containsStr g p.1 &&
        p.2.any (fun a' => occursIn a' a t)) = true := by
      rw [Bool.and_eq_true]
      exact ⟨hg, List.any_eq_true.2 ⟨k, hk, hocc⟩⟩
    rw [if_neg (by simp [hno1 a t h1]),
      if_pos (List.any_eq_true.2 ⟨p, hp, hcond⟩)]
  · intro g a t h1 h2
    unfold classify_focus
    have hc2 : focus_app_mappings.any (fun p =>
        containsStr g p.1 && p.2.any (fun a' => occursIn a' a t)) = false := by
      refine List.any_eq_false.2 (fun p hp => ?_)
      rcases h2 p hp with hg | hk
      · simp [hg]
      · rw [Bool.and_eq_true]
        intro hand
        rcases List.any_eq_true.1 hand.2 with ⟨k, hkm, hko⟩
        rw [hk k hkm] at hko
        exact absurd hko (by simp)
    rw [if_neg (by simp [hno1 a t h1]), if_neg (by simp [hc2])]

/-- Witness for C6: the distraction branch fires on a concrete input in which
"youtube" occurs. -/
theorem focus_decision_tree_witness :
    classify_focus "studying computer science" "youtube" "cat videos" =
      ("not_focused", 85/100) :=
  focus_decision_tree.1 "studying computer science" "youtube" "cat videos"
    ⟨"youtube", by decide, by decide⟩

/-- C9 as amended: the heuristic fallback's key activities come from words
longer than 4 characters (not 5), lowercased and ranked by frequency (ties in
first-occurrence order) rather than kept in raw token order, with no URL
filtering; the first 5 of that ranking are taken and the placeholder
["general activity"] is substituted when no word qualifies, so the list is
never empty and never longer than 5. -/
theorem key_activities_amended (text app_name : String) :
    (create_fallback_analysis text app_name).key_activities =
      some (fallback_key_activities text) ∧
    fallback_key_activities text ≠ [] ∧
    (fallback_key_activities text).length ≤ 5 ∧
    ∀ w ∈ fallback_key_activities text,
      w = "general activity" ∨
      ∃ tok ∈ pySplit text, 4 < tok.length ∧ w = pyLower tok := by
  refine ⟨rfl, ?_, ?_, ?_⟩
  · simp only [fallback_key_activities]
    split_ifs with h
    · simp
    · exact fun he => h (by simp [he])
  · simp only [fallback_key_activities]
    split_ifs with h
    · simp
    · rw [List.length_map, List.length_take]
      exact min_le_left 5 _
  · intro w hw
    simp only [fallback_key_activities] at hw
    split_ifs at hw with h
    · left
      simpa using hw
    · rcases List.mem_map.1 hw with ⟨p, hp, he⟩
      have hmem := mem_sortByCountDesc (List.mem_of_mem_take hp)
      rcases buildFreq_keys hmem with ⟨tok, htok, hlen, hkey⟩
      exact .inr ⟨tok, htok, hlen, by rw [← he, hkey]⟩

/-- Witness for C9 as amended: on the text
"sixchr sixchr https://aaa.com hello" the member "hello" of the produced key
activities is the lowering of a token longer than 4 characters. -/
theorem key_activities_amended_witness :
    "hello" = "general activity" ∨
    ∃ tok ∈ pySplit "sixchr sixchr https://aaa.com hello", 4 < tok.length ∧
      "hello" = pyLower tok :=
  (key_activities_amended "sixchr sixchr https://aaa.com hello" "Chrome").2.2.2
    "hello" (by decide)

/-- Key-activity extraction exactly as the claim words it, kept for
refutation: the first 5 tokens in original token order whose length exceeds
5 characters and which do not start with a URL scheme marker, with a
placeholder when none qualifies. -/
def spec_key_activities (text : String) : List String :=
  let ka := ((pySplit text).filter
    (fun w => 5 < w.length && !(startsWithStr w "http"))).take 5
  if ka.isEmpty then ["general activity"] else ka

/-- C9 counterexample: on "sixchr sixchr https://aaa.com hello" the code
keeps the 5-character token "hello", keeps the URL token, deduplicates the
repeated "sixchr" and ranks by frequency, so it returns
["sixchr", "https://aaa.com", "hello"], not the ["sixchr", "sixchr"] that
the claim's token-order/length-over-5/URL-filter rule prescribes. -/
theorem key_activities_counterexample :
    fallback_key_activities "sixchr sixchr https://aaa.com hello" =
      ["sixchr", "https://aaa.com", "hello"] ∧
    spec_key_activities "sixchr sixchr https://aaa.com hello" =
      ["sixchr", "sixchr"] ∧
    fallback_key_activities "sixchr sixchr https://aaa.com hello" ≠
      spec_key_activities "sixchr sixchr https://aaa.com hello" :=
  ⟨by decide, by decide, by decide⟩

end Shoulder
